import Mathlib

/-!
Verification of the SunKey Gene-Key pipeline.

This file gives a shallow embedding of the core logic of the SunKey
repository and proves properties about it.  Numbers that the JavaScript
source manipulates as IEEE doubles are modelled as elements of a linear
ordered field with a floor function (instantiated at `ℚ` where we want to
evaluate, at `ℝ` where the real-valued semantics matters); arithmetic is
exact.  Environment functions (the timezone database reached through
`Intl`/`toLocaleString`, the `astronomy-engine` ephemeris, `Math.sin`) are
explicit parameters of the embedded definitions, so every embedded
function is a pure function of its arguments.
-/

set_option maxRecDepth 16000

section JsPrimitives

variable {α : Type} [LinearOrderedField α] [FloorRing α]

/-- Truncation toward zero, the rounding used by the JavaScript `%`
operator on numbers. -/
def jsTrunc (x : α) : ℤ := if 0 ≤ x then ⌊x⌋ else ⌈x⌉

/-- Model of the JavaScript remainder operator `x % m`: the remainder has
the sign of the dividend (`x - m * trunc (x / m)`). -/
def jsMod (x m : α) : α := x - m * (jsTrunc (x / m) : α)

/-- Model of a JavaScript array lookup `xs[i]` at an integer index:
`undefined` (here `none`) for a negative or out-of-bounds index. -/
def jsArrayGet {β : Type} (xs : List β) (i : ℤ) : Option β :=
  if 0 ≤ i then xs[i.toNat]? else none

end JsPrimitives

/-- The I Ching / Gene Keys wheel mapping, from `src/unnamed/part_000`
(`GENE_KEY_WHEEL`): position index (0..63) to Gene Key number. -/
def GENE_KEY_WHEEL : List ℕ :=
  [13, 49, 30, 55, 37, 63, 22, 36,
   25, 17, 21, 51, 42, 3, 27, 24,
   2, 23, 8, 20, 16, 35, 45, 12,
   15, 52, 39, 53, 62, 56, 31, 33,
   7, 4, 29, 59, 40, 64, 47, 6,
   46, 18, 48, 57, 32, 50, 28, 44,
   1, 43, 14, 34, 9, 5, 26, 11,
   10, 58, 38, 54, 61, 60, 41, 19]

section Wheel

variable {α : Type} [LinearOrderedField α] [FloorRing α]

/-- Normalization step of `mapLongitudeToGeneKey`
(`src/unnamed/part_000`, lines 404-406): `longitude % 360`, then add 360
if the remainder is negative. -/
def normalizeLongitude (longitude : α) : α :=
  let normalized := jsMod longitude 360
  if normalized < 0 then normalized + 360 else normalized

/-- Segment index computed by `mapLongitudeToGeneKey`
(`src/unnamed/part_000`, lines 410-411): `Math.floor (normalized / (360/64))`. -/
def segmentIndex (longitude : α) : ℤ :=
  ⌊normalizeLongitude longitude / (360 / 64 : α)⌋

/-- Model of `mapLongitudeToGeneKey` (`src/unnamed/part_000`, lines
403-415): table lookup of the segment index in the wheel; an
out-of-bounds index would give JavaScript `undefined`, modelled by
`none`. -/
def mapLongitudeToGeneKey (longitude : α) : Option ℕ :=
  jsArrayGet GENE_KEY_WHEEL (segmentIndex longitude)

/-- Model of `Number.prototype.toFixed(2)` for the non-negative dyadic
values produced by the wheel arithmetic: round to the nearest multiple of
1/100, ties toward the larger value (ECMAScript picks the larger
candidate integer on a tie). -/
def toFixed2 (q : ℚ) : ℚ := (⌊q * 100 + 1 / 2⌋ : ℚ) / 100

/-- Degree range record returned by `getGeneKeyDegreeRange`; the source
returns `start` and `end` as the `toFixed(2)` strings, modelled here by
the rounded numeric values. -/
structure DegreeRange where
  start : ℚ
  endDeg : ℚ
  geneKey : ℕ
  deriving DecidableEq

/-- Model of `getGeneKeyDegreeRange` (`src/unnamed/part_000`, lines
422-435): position of the Gene Key in the wheel (`indexOf`, the absent
case `-1` throws, modelled by `none`), then the segment bounds rounded by
`toFixed(2)`. -/
def getGeneKeyDegreeRange (geneKeyNumber : ℕ) : Option DegreeRange :=
  let segmentSize : ℚ := 360 / 64
  let index := GENE_KEY_WHEEL.indexOf geneKeyNumber
  if index < GENE_KEY_WHEEL.length then
    some ⟨toFixed2 (index * segmentSize), toFixed2 ((index + 1) * segmentSize), geneKeyNumber⟩
  else none

/-- Wheel segment record produced by `getAllGeneKeySegments`. -/
structure WheelSegment where
  geneKey : ℕ
  start : ℚ
  endDeg : ℚ
  index : ℕ
  deriving DecidableEq

/-- Model of `getAllGeneKeySegments` (`src/unnamed/part_000`, lines
442-450): map each wheel entry with its index to a segment record with
exact (unrounded) bounds. -/
def getAllGeneKeySegments : List WheelSegment :=
  GENE_KEY_WHEEL.enum.map fun p =>
    { geneKey := p.2
      start := (p.1 : ℚ) * (360 / 64)
      endDeg := ((p.1 : ℚ) + 1) * (360 / 64)
      index := p.1 }

end Wheel

/-- The fixed zodiac sign table of `getZodiacSign`
(`src/utils/suncalc.js`, lines 58-66 and `src/unnamed/part_001`, lines
66-74). -/
def zodiacSigns : List String :=
  ["Aries", "Taurus", "Gemini", "Cancer", "Leo", "Virgo",
   "Libra", "Scorpio", "Sagittarius", "Capricorn", "Aquarius", "Pisces"]

/-- Model of `getZodiacSign`: `signs[Math.floor(longitude / 30)]`, with
`undefined` (`none`) when the index falls outside the 12-entry table.
The source performs no normalization of its argument. -/
def getZodiacSign {α : Type} [LinearOrderedField α] [FloorRing α]
    (longitude : α) : Option String :=
  jsArrayGet zodiacSigns ⌊longitude / 30⌋

section WheelLemmas

variable {α : Type} [LinearOrderedField α] [FloorRing α]

/-- Truncation agrees with the floor on non-negative arguments. -/
lemma jsTrunc_of_nonneg {x : α} (h : 0 ≤ x) : jsTrunc x = ⌊x⌋ := by
  simp [jsTrunc, h]

/-- Truncation agrees with the ceiling on negative arguments. -/
lemma jsTrunc_of_neg {x : α} (h : x < 0) : jsTrunc x = ⌈x⌉ := by
  simp [jsTrunc, not_le.mpr h]

/-- The JavaScript remainder of a non-negative dividend by a positive
modulus lies in `[0, m)`. -/
lemma jsMod_bounds_of_nonneg {x m : α} (hx : 0 ≤ x) (hm : 0 < m) :
    0 ≤ jsMod x m ∧ jsMod x m < m := by
  have hq : (0 : α) ≤ x / m := div_nonneg hx hm.le
  have h1 : (⌊x / m⌋ : α) ≤ x / m := Int.floor_le _
  have h2 : x / m < ⌊x / m⌋ + 1 := Int.lt_floor_add_one _
  rw [jsMod, jsTrunc_of_nonneg hq]
  constructor
  · have := (mul_le_mul_left hm).mpr h1
    rw [mul_div_cancel₀ _ hm.ne'] at this
    linarith
  · have := (mul_lt_mul_left hm).mpr h2
    rw [mul_div_cancel₀ _ hm.ne'] at this
    linarith

/-- The JavaScript remainder of a negative dividend by a positive modulus
lies in `(-m, 0]`. -/
lemma jsMod_bounds_of_neg {x m : α} (hx : x < 0) (hm : 0 < m) :
    -m < jsMod x m ∧ jsMod x m ≤ 0 := by
  have hq : x / m < 0 := div_neg_of_neg_of_pos hx hm
  have h1 : x / m ≤ (⌈x / m⌉ : α) := Int.le_ceil _
  have h2 : (⌈x / m⌉ : α) < x / m + 1 := Int.ceil_lt_add_one _
  rw [jsMod, jsTrunc_of_neg hq]
  constructor
  · have := (mul_lt_mul_left hm).mpr h2
    rw [mul_add, mul_one, mul_div_cancel₀ _ hm.ne'] at this
    linarith
  · have := (mul_le_mul_left hm).mpr h1
    rw [mul_div_cancel₀ _ hm.ne'] at this
    linarith

/-- The normalized longitude always lies in `[0, 360)`. -/
lemma normalizeLongitude_bounds (l : α) :
    0 ≤ normalizeLongitude l ∧ normalizeLongitude l < 360 := by
  unfold normalizeLongitude
  rcases le_or_lt 0 l with hl | hl
  · obtain ⟨h0, h1⟩ := jsMod_bounds_of_nonneg (x := l) (m := 360) hl (by norm_num)
    rw [if_neg (not_lt.mpr h0)]
    exact ⟨h0, h1⟩
  · obtain ⟨h0, h1⟩ := jsMod_bounds_of_neg (x := l) (m := 360) hl (by norm_num)
    by_cases hneg : jsMod l 360 < 0
    · rw [if_pos hneg]
      constructor <;> linarith
    · rw [if_neg hneg]
      exact ⟨not_lt.mp hneg, by linarith⟩

/-- A longitude already in `[0, 360)` is left unchanged by normalization. -/
lemma normalizeLongitude_of_mem {l : α} (h0 : 0 ≤ l) (h1 : l < 360) :
    normalizeLongitude l = l := by
  have hq0 : (0 : α) ≤ l / 360 := div_nonneg h0 (by norm_num)
  have hq1 : l / 360 < 1 := (div_lt_one (by norm_num)).mpr h1
  have hfl : ⌊l / 360⌋ = 0 := Int.floor_eq_zero_iff.mpr ⟨hq0, hq1⟩
  have hmod : jsMod l 360 = l := by
    rw [jsMod, jsTrunc_of_nonneg hq0, hfl]
    push_cast
    ring
  unfold normalizeLongitude
  rw [hmod, if_neg (not_lt.mpr h0)]

/-- The computed segment index always lies in `0..63`. -/
lemma segmentIndex_bounds (l : α) : 0 ≤ segmentIndex l ∧ segmentIndex l ≤ 63 := by
  obtain ⟨h0, h1⟩ := normalizeLongitude_bounds l
  unfold segmentIndex
  constructor
  · exact Int.floor_nonneg.mpr (div_nonneg h0 (by norm_num))
  · have : ⌊normalizeLongitude l / (360 / 64 : α)⌋ < 64 := by
      rw [Int.floor_lt]
      rw [div_lt_iff₀ (by norm_num : (0 : α) < 360 / 64)]
      push_cast
      linarith
    omega

/-- Identification of the segment index from an enclosing exact segment
interval. -/
lemma segmentIndex_eq_of_bounds {l : α} {k : ℤ} (h0 : 0 ≤ l) (h1 : l < 360)
    (hlo : (k : α) * (360 / 64) ≤ l) (hhi : l < ((k : α) + 1) * (360 / 64)) :
    segmentIndex l = k := by
  unfold segmentIndex
  rw [normalizeLongitude_of_mem h0 h1]
  rw [Int.floor_eq_iff]
  have hpos : (0 : α) < 360 / 64 := by norm_num
  constructor
  · rw [le_div_iff₀ hpos]
    exact hlo
  · rw [div_lt_iff₀ hpos]
    linarith

/-- Table lookup succeeds for every index in `0..63`. -/
lemma wheel_getElem?_of_le {i : ℤ} (h0 : 0 ≤ i) (h1 : i ≤ 63) :
    ∃ g : ℕ, jsArrayGet GENE_KEY_WHEEL i = some g ∧ g ∈ GENE_KEY_WHEEL := by
  have hlen : GENE_KEY_WHEEL.length = 64 := by decide
  have hlt : i.toNat < GENE_KEY_WHEEL.length := by omega
  refine ⟨GENE_KEY_WHEEL[i.toNat], ?_, List.getElem_mem hlt⟩
  rw [jsArrayGet, if_pos h0, List.getElem?_eq_getElem hlt]

end WheelLemmas

/-- Every entry of the wheel is a Gene Key number in `1..64`. -/
lemma wheel_entries_range : ∀ g ∈ GENE_KEY_WHEEL, 1 ≤ g ∧ g ≤ 64 := by decide

/-- The wheel table has no duplicate entries. -/
lemma wheel_nodup : GENE_KEY_WHEEL.Nodup := by decide

/-- Evaluation helper for concrete floors over `ℚ`. -/
lemma floor_eval {q : ℚ} {z : ℤ} (h1 : (z : ℚ) ≤ q) (h2 : q < z + 1) : ⌊q⌋ = z :=
  Int.floor_eq_iff.mpr ⟨h1, h2⟩

/-- Evaluation helper for `toFixed2` at concrete rationals. -/
lemma toFixed2_eval (q : ℚ) (z : ℤ) (h1 : (z : ℚ) ≤ q * 100 + 1 / 2)
    (h2 : q * 100 + 1 / 2 < z + 1) : toFixed2 q = (z : ℚ) / 100 := by
  unfold toFixed2
  rw [floor_eval h1 h2]

/-- C2.  `mapLongitudeToGeneKey` maps longitude 0.0 to wheel segment
index 0 with Gene Key 13, and longitude 359.99 to wheel segment index 63
with Gene Key 19. -/
theorem mapLongitudeToGeneKey_boundaries :
    segmentIndex (0 : ℚ) = 0 ∧ mapLongitudeToGeneKey (0 : ℚ) = some 13 ∧
    segmentIndex (35999 / 100 : ℚ) = 63 ∧
    mapLongitudeToGeneKey (35999 / 100 : ℚ) = some 19 := by
  have h0 : segmentIndex (0 : ℚ) = 0 :=
    segmentIndex_eq_of_bounds (by norm_num) (by norm_num) (by norm_num) (by norm_num)
  have h63 : segmentIndex (35999 / 100 : ℚ) = 63 :=
    segmentIndex_eq_of_bounds (by norm_num) (by norm_num) (by norm_num) (by norm_num)
  refine ⟨h0, ?_, h63, ?_⟩
  · rw [mapLongitudeToGeneKey, h0]; decide
  · rw [mapLongitudeToGeneKey, h63]; decide

/-- C3.  For every real longitude (in the exact-arithmetic model of the
JavaScript doubles), `mapLongitudeToGeneKey` normalizes it into
`[0, 360)` via modulo (e.g. `-10` normalizes to `350`), the computed
segment index is between 0 and 63 (never 64), and the table lookup
yields a defined Gene Key number in `1..64`. -/
theorem mapLongitudeToGeneKey_total (l : ℝ) :
    (0 ≤ normalizeLongitude l ∧ normalizeLongitude l < 360) ∧
    (0 ≤ segmentIndex l ∧ segmentIndex l ≤ 63) ∧
    (∃ g : ℕ, mapLongitudeToGeneKey l = some g ∧ 1 ≤ g ∧ g ≤ 64) ∧
    normalizeLongitude (-10 : ℝ) = 350 := by
  obtain ⟨hi0, hi63⟩ := segmentIndex_bounds l
  obtain ⟨g, hget, hmem⟩ := wheel_getElem?_of_le hi0 hi63
  refine ⟨normalizeLongitude_bounds l, ⟨hi0, hi63⟩,
    ⟨g, hget, (wheel_entries_range g hmem).1, (wheel_entries_range g hmem).2⟩, ?_⟩
  have hq : (-10 : ℝ) / 360 < 0 := by norm_num
  have hceil : ⌈(-10 : ℝ) / 360⌉ = 0 := by
    rw [Int.ceil_eq_zero_iff]
    constructor <;> norm_num
  have hmod : jsMod (-10 : ℝ) 360 = -10 := by
    rw [jsMod, jsTrunc_of_neg hq, hceil]
    norm_num
  unfold normalizeLongitude
  rw [hmod, if_pos (by norm_num : (-10 : ℝ) < 0)]
  norm_num

/-- C9.  `getGeneKeyDegreeRange` fails (the source throws
`Invalid Gene Key number`, modelled by `none`) for every Gene Key number
outside `1..64` or not present in the wheel table. -/
theorem getGeneKeyDegreeRange_rejects_invalid (g : ℕ)
    (h : g < 1 ∨ 64 < g ∨ g ∉ GENE_KEY_WHEEL) : getGeneKeyDegreeRange g = none := by
  have hnot : g ∉ GENE_KEY_WHEEL := by
    rcases h with h | h | h
    · intro hm
      have := wheel_entries_range g hm
      omega
    · intro hm
      have := wheel_entries_range g hm
      omega
    · exact h
  have hidx : GENE_KEY_WHEEL.indexOf g = GENE_KEY_WHEEL.length :=
    List.indexOf_eq_length.mpr hnot
  simp only [getGeneKeyDegreeRange, hidx, lt_irrefl, if_false]

/-- Witness for C9 at the out-of-range inputs 0 and 65. -/
theorem getGeneKeyDegreeRange_rejects_invalid_witness :
    ((0 : ℕ) < 1 ∨ 64 < (0 : ℕ) ∨ (0 : ℕ) ∉ GENE_KEY_WHEEL) ∧
    getGeneKeyDegreeRange 0 = none ∧ getGeneKeyDegreeRange 65 = none :=
  ⟨Or.inl (by decide), getGeneKeyDegreeRange_rejects_invalid 0 (Or.inl (by decide)),
    getGeneKeyDegreeRange_rejects_invalid 65 (Or.inr (Or.inl (by decide)))⟩

/-- C1, counterexample.  At longitude 5.625 the selected segment is
index 1 (Gene Key 49), but the degree range returned by
`getGeneKeyDegreeRange 49` starts at `toFixed(2)`-rounded 5.63, which is
strictly greater than 5.625: the returned range does not contain the
longitude, refuting the claim as stated. -/
theorem geneKeyRange_boundary_counterexample :
    mapLongitudeToGeneKey (45 / 8 : ℚ) = some 49 ∧
    getGeneKeyDegreeRange 49 = some ⟨563 / 100, 1125 / 100, 49⟩ ∧
    ¬ ((563 / 100 : ℚ) ≤ 45 / 8) := by
  have h1 : segmentIndex (45 / 8 : ℚ) = 1 :=
    segmentIndex_eq_of_bounds (by norm_num) (by norm_num) (by norm_num) (by norm_num)
  refine ⟨?_, ?_, by norm_num⟩
  · rw [mapLongitudeToGeneKey, h1]; decide
  · have hidx : GENE_KEY_WHEEL.indexOf 49 = 1 := by decide
    have hlt : GENE_KEY_WHEEL.indexOf 49 < GENE_KEY_WHEEL.length := by decide
    have e1 : toFixed2 ((1 : ℕ) * (360 / 64) : ℚ) = ((563 : ℤ) : ℚ) / 100 :=
      toFixed2_eval _ 563 (by norm_num) (by norm_num)
    have e2 : toFixed2 (((1 : ℕ) + 1) * (360 / 64) : ℚ) = ((1125 : ℤ) : ℚ) / 100 :=
      toFixed2_eval _ 1125 (by norm_num) (by norm_num)
    simp only [getGeneKeyDegreeRange, hidx] at *
    rw [if_pos (by decide : (1 : ℕ) < GENE_KEY_WHEEL.length)]
    rw [Option.some_inj]
    rw [DegreeRange.mk.injEq]
    refine ⟨?_, ?_, rfl⟩
    · rw [show ((1 : ℕ) : ℚ) * (360 / 64) = ((1 : ℕ) * (360 / 64) : ℚ) by norm_num, e1]
      norm_num
    · rw [show (((1 : ℕ) : ℚ) + 1) * (360 / 64) = (((1 : ℕ) + 1) * (360 / 64) : ℚ) by norm_num, e2]
      norm_num

/-- C1, amended.  For every longitude in `[0, 360)`,
`mapLongitudeToGeneKey` selects exactly one wheel segment; the exact
(unrounded) degree interval of that segment contains the longitude; and
`getGeneKeyDegreeRange` of that segment's Gene Key returns exactly that
interval with its endpoints rounded to two decimals by `toFixed(2)`
(rounding which can exclude boundary longitudes such as 5.625). -/
theorem mapLongitudeToGeneKey_exact_range (l : ℚ) (h0 : 0 ≤ l) (h1 : l < 360) :
    ∃ g : ℕ, mapLongitudeToGeneKey l = some g ∧
      (∀ g2 : ℕ, mapLongitudeToGeneKey l = some g2 → g2 = g) ∧
      (segmentIndex l : ℚ) * (360 / 64) ≤ l ∧
      l < ((segmentIndex l : ℚ) + 1) * (360 / 64) ∧
      (∀ j : ℤ, (j : ℚ) * (360 / 64) ≤ l → l < ((j : ℚ) + 1) * (360 / 64) →
        j = segmentIndex l) ∧
      getGeneKeyDegreeRange g =
        some ⟨toFixed2 ((segmentIndex l : ℚ) * (360 / 64)),
              toFixed2 (((segmentIndex l : ℚ) + 1) * (360 / 64)), g⟩ := by
  obtain ⟨hi0, hi63⟩ := segmentIndex_bounds l
  obtain ⟨g, hget, hmem⟩ := wheel_getElem?_of_le hi0 hi63
  have hlen : GENE_KEY_WHEEL.length = 64 := by decide
  have hlt : (segmentIndex l).toNat < GENE_KEY_WHEEL.length := by omega
  have hgval : GENE_KEY_WHEEL[(segmentIndex l).toNat] = g := by
    have := hget
    rw [jsArrayGet, if_pos hi0, List.getElem?_eq_getElem hlt, Option.some_inj] at this
    exact this
  have hseg : segmentIndex l = ⌊l / (360 / 64 : ℚ)⌋ := by
    unfold segmentIndex
    rw [normalizeLongitude_of_mem h0 h1]
  have hpos : (0 : ℚ) < 360 / 64 := by norm_num
  have hget' : mapLongitudeToGeneKey l = some g := by
    rw [mapLongitudeToGeneKey]
    exact hget
  refine ⟨g, hget', ?_, ?_, ?_, ?_, ?_⟩
  · intro g2 hg2
    rw [hget', Option.some_inj] at hg2
    exact hg2.symm
  · rw [hseg]
    have := Int.floor_le (l / (360 / 64 : ℚ))
    calc (⌊l / (360 / 64 : ℚ)⌋ : ℚ) * (360 / 64)
        ≤ l / (360 / 64) * (360 / 64) := by
          exact mul_le_mul_of_nonneg_right this hpos.le
      _ = l := div_mul_cancel₀ _ hpos.ne'
  · rw [hseg]
    have := Int.lt_floor_add_one (l / (360 / 64 : ℚ))
    have h2 := (mul_lt_mul_right hpos).mpr this
    rw [div_mul_cancel₀ _ hpos.ne'] at h2
    linarith
  · intro j hj1 hj2
    exact (segmentIndex_eq_of_bounds h0 h1 hj1 hj2).symm
  · have hidx : GENE_KEY_WHEEL.indexOf g = (segmentIndex l).toNat := by
      rw [← hgval]
      exact List.indexOf_getElem wheel_nodup _ hlt
    have hcast : (((segmentIndex l).toNat : ℕ) : ℚ) = ((segmentIndex l : ℤ) : ℚ) := by
      have := Int.toNat_of_nonneg hi0
      exact_mod_cast congrArg (fun z : ℤ => (z : ℚ)) this
    simp only [getGeneKeyDegreeRange, hidx]
    rw [if_pos hlt]
    rw [Option.some_inj, DegreeRange.mk.injEq]
    exact ⟨by rw [hcast], by rw [hcast], rfl⟩

/-- Witness for the amended C1 theorem at longitude 100. -/
theorem mapLongitudeToGeneKey_exact_range_witness :
    (0 : ℚ) ≤ 100 ∧ (100 : ℚ) < 360 ∧
    (∃ g : ℕ, mapLongitudeToGeneKey (100 : ℚ) = some g ∧
      (∀ g2 : ℕ, mapLongitudeToGeneKey (100 : ℚ) = some g2 → g2 = g) ∧
      (segmentIndex (100 : ℚ) : ℚ) * (360 / 64) ≤ 100 ∧
      (100 : ℚ) < ((segmentIndex (100 : ℚ) : ℚ) + 1) * (360 / 64) ∧
      (∀ j : ℤ, (j : ℚ) * (360 / 64) ≤ 100 → (100 : ℚ) < ((j : ℚ) + 1) * (360 / 64) →
        j = segmentIndex (100 : ℚ)) ∧
      getGeneKeyDegreeRange g =
        some ⟨toFixed2 ((segmentIndex (100 : ℚ) : ℚ) * (360 / 64)),
              toFixed2 (((segmentIndex (100 : ℚ) : ℚ) + 1) * (360 / 64)), g⟩) :=
  ⟨by norm_num, by norm_num,
    mapLongitudeToGeneKey_exact_range 100 (by norm_num) (by norm_num)⟩

/-- Shape of the segment record at each index of `getAllGeneKeySegments`. -/
lemma getAllGeneKeySegments_getElem? (i : ℕ) (h : i < 64) :
    ∃ hw : i < GENE_KEY_WHEEL.length,
      getAllGeneKeySegments[i]? =
        some { geneKey := GENE_KEY_WHEEL.get ⟨i, hw⟩
               start := (i : ℚ) * (360 / 64)
               endDeg := ((i : ℚ) + 1) * (360 / 64)
               index := i } := by
  have hw : i < GENE_KEY_WHEEL.length := by
    have : GENE_KEY_WHEEL.length = 64 := by decide
    omega
  refine ⟨hw, ?_⟩
  have he : i < GENE_KEY_WHEEL.enum.length := by
    rw [List.enum_length]
    exact hw
  have henum : GENE_KEY_WHEEL.enum[i]? = some (i, GENE_KEY_WHEEL.get ⟨i, hw⟩) := by
    rw [List.getElem?_eq_getElem he, List.getElem_enum]
    rfl
  unfold getAllGeneKeySegments
  rw [List.getElem?_map, henum]
  rfl

/-- C4.  The static wheel table is well formed: `getAllGeneKeySegments`
returns exactly 64 segments in index order with contiguous half-open
intervals of width exactly 5.625 covering `[0, 360)`, and
`GENE_KEY_WHEEL` assigns each Gene Key number `1..64` to exactly one
position.  (The embedding is purely functional: the table is a constant
that no operation can mutate.) -/
theorem wheel_table_wellformed :
    getAllGeneKeySegments.length = 64 ∧
    (∀ i : ℕ, i < 64 → ∃ seg : WheelSegment, getAllGeneKeySegments[i]? = some seg ∧
      seg.index = i ∧ seg.geneKey ∈ GENE_KEY_WHEEL ∧
      seg.start = (i : ℚ) * (360 / 64) ∧ seg.endDeg = ((i : ℚ) + 1) * (360 / 64) ∧
      seg.endDeg - seg.start = 45 / 8) ∧
    (∀ i : ℕ, ∀ a b : WheelSegment, getAllGeneKeySegments[i]? = some a →
      getAllGeneKeySegments[i + 1]? = some b → a.endDeg = b.start) ∧
    (getAllGeneKeySegments[0]?).map WheelSegment.start = some 0 ∧
    (getAllGeneKeySegments[63]?).map WheelSegment.endDeg = some 360 ∧
    GENE_KEY_WHEEL.length = 64 ∧
    (∀ k : ℕ, 1 ≤ k → k ≤ 64 → GENE_KEY_WHEEL.count k = 1) := by
  have hslen : getAllGeneKeySegments.length = 64 := by
    rw [getAllGeneKeySegments, List.length_map, List.enum_length]
    decide
  refine ⟨hslen, ?_, ?_, ?_, ?_, by decide, ?_⟩
  · intro i h
    obtain ⟨hw, hval⟩ := getAllGeneKeySegments_getElem? i h
    refine ⟨_, hval, rfl, ?_, rfl, rfl, by ring⟩
    exact List.get_mem GENE_KEY_WHEEL i hw
  · intro i a b ha hb
    have hi1 : i + 1 < 64 := by
      by_contra hcon
      have : 64 ≤ i + 1 := by omega
      have : getAllGeneKeySegments.length ≤ i + 1 := by omega
      rw [List.getElem?_eq_none this] at hb
      exact Option.noConfusion hb
    have hi : i < 64 := by omega
    obtain ⟨hwa, hva⟩ := getAllGeneKeySegments_getElem? i hi
    obtain ⟨hwb, hvb⟩ := getAllGeneKeySegments_getElem? (i + 1) hi1
    rw [hva, Option.some_inj] at ha
    rw [hvb, Option.some_inj] at hb
    rw [← ha, ← hb]
    push_cast
    ring
  · obtain ⟨hw, hval⟩ := getAllGeneKeySegments_getElem? 0 (by omega)
    rw [hval, Option.map_some']
    rw [Option.some_inj]
    norm_num
  · obtain ⟨hw, hval⟩ := getAllGeneKeySegments_getElem? 63 (by omega)
    rw [hval, Option.map_some']
    rw [Option.some_inj]
    norm_num
  · intro k h1 h2
    have hf : ∀ k : Fin 64, GENE_KEY_WHEEL.count (k.val + 1) = 1 := by decide
    have := hf ⟨k - 1, by omega⟩
    simpa [Nat.sub_add_cancel h1] using this

/-- Witness for C4: the segment at index 0 and the count of Gene Key 13. -/
theorem wheel_table_wellformed_witness :
    (0 : ℕ) < 64 ∧
    (∃ seg : WheelSegment, getAllGeneKeySegments[0]? = some seg ∧
      seg.index = 0 ∧ seg.geneKey ∈ GENE_KEY_WHEEL ∧
      seg.start = ((0 : ℕ) : ℚ) * (360 / 64) ∧
      seg.endDeg = (((0 : ℕ) : ℚ) + 1) * (360 / 64) ∧
      seg.endDeg - seg.start = 45 / 8) ∧
    (1 ≤ 13 ∧ 13 ≤ 64 ∧ GENE_KEY_WHEEL.count 13 = 1) :=
  ⟨by decide, wheel_table_wellformed.2.1 0 (by decide),
    by decide, by decide, wheel_table_wellformed.2.2.2.2.2.2 13 (by decide) (by decide)⟩

/-- C10.  `getZodiacSign` performs no normalization: every longitude at
or above 360, and every negative longitude, produces an index outside
`0..11` and the lookup returns `undefined` (`none`); only arguments
already in `[0, 360)` produce one of the 12 fixed sign names. -/
theorem getZodiacSign_no_normalization (l : ℝ) :
    (360 ≤ l → 12 ≤ ⌊l / 30⌋ ∧ getZodiacSign l = none) ∧
    (l < 0 → ⌊l / 30⌋ < 0 ∧ getZodiacSign l = none) ∧
    (0 ≤ l → l < 360 → ∃ s, getZodiacSign l = some s ∧ s ∈ zodiacSigns) := by
  have hlen : zodiacSigns.length = 12 := rfl
  refine ⟨?_, ?_, ?_⟩
  · intro h
    have h12 : (12 : ℤ) ≤ ⌊l / 30⌋ := by
      rw [Int.le_floor]
      rw [le_div_iff₀ (by norm_num : (0 : ℝ) < 30)]
      push_cast
      linarith
    refine ⟨h12, ?_⟩
    rw [getZodiacSign, jsArrayGet, if_pos (by omega)]
    rw [List.getElem?_eq_none]
    omega
  · intro h
    have hneg : ⌊l / 30⌋ < 0 := by
      rw [Int.floor_lt]
      push_cast
      exact div_neg_of_neg_of_pos h (by norm_num)
    refine ⟨hneg, ?_⟩
    rw [getZodiacSign, jsArrayGet, if_neg (by omega)]
  · intro h0 h1
    have hge : 0 ≤ ⌊l / 30⌋ := Int.floor_nonneg.mpr (div_nonneg h0 (by norm_num))
    have hlt : ⌊l / 30⌋ < 12 := by
      rw [Int.floor_lt]
      rw [div_lt_iff₀ (by norm_num : (0 : ℝ) < 30)]
      push_cast
      linarith
    have hnat : (⌊l / 30⌋).toNat < zodiacSigns.length := by omega
    refine ⟨zodiacSigns[(⌊l / 30⌋).toNat], ?_, List.getElem_mem hnat⟩
    rw [getZodiacSign, jsArrayGet, if_pos hge, List.getElem?_eq_getElem hnat]

/-- Witness for C10 at longitudes 360 and -1. -/
theorem getZodiacSign_no_normalization_witness :
    ((360 : ℝ) ≤ 360 ∧ getZodiacSign (360 : ℝ) = none) ∧
    ((-1 : ℝ) < 0 ∧ getZodiacSign (-1 : ℝ) = none) :=
  ⟨⟨le_refl _, ((getZodiacSign_no_normalization 360).1 (le_refl _)).2⟩,
    ⟨by norm_num, ((getZodiacSign_no_normalization (-1)).2.1 (by norm_num)).2⟩⟩

/-- Splitting of a character list at a separator, modelling the
ECMAScript `String.prototype.split` with a one-character separator (as
used on the date and time strings in `src/unnamed/part_002`). -/
def jsSplit (sep : Char) : List Char → List (List Char)
  | [] => [[]]
  | c :: cs =>
    let rest := jsSplit sep cs
    if c = sep then [] :: rest
    else
      match rest with
      | [] => [[c]]
      | r :: rs => (c :: r) :: rs

/-- The ECMAScript whitespace set (the `WhiteSpace` and `LineTerminator`
code points) that the `Number` conversion trims from a string before
parsing it. -/
def jsWhitespaceChar (c : Char) : Bool :=
  c == ' ' || c == '\t' || c == '\n' || c == '\r' || c == '\x0B' || c == '\x0C' ||
  c == '\u00A0' || c == '\uFEFF' || c == '\u1680' ||
  (decide ('\u2000' ≤ c) && decide (c ≤ '\u200A')) ||
  c == '\u2028' || c == '\u2029' || c == '\u202F' || c == '\u205F' || c == '\u3000'

/-- Leading and trailing whitespace removal, modelling the trimming the
ECMAScript `Number` conversion applies to strings. -/
def jsTrim (s : List Char) : List Char :=
  ((s.dropWhile jsWhitespaceChar).reverse.dropWhile jsWhitespaceChar).reverse

/-- Value of a list of decimal digits. -/
def digitsToNat (s : List Char) : ℕ :=
  s.foldl (fun n c => n * 10 + (c.toNat - '0'.toNat)) 0

/-- Hexadecimal-digit test (`0-9`, `a-f`, `A-F`). -/
def isHexDigitChar (c : Char) : Bool :=
  c.isDigit || (decide ('a' ≤ c) && decide (c ≤ 'f')) || (decide ('A' ≤ c) && decide (c ≤ 'F'))

/-- Value of a hexadecimal digit. -/
def hexDigitVal (c : Char) : ℕ :=
  if c.isDigit then c.toNat - '0'.toNat
  else if decide ('a' ≤ c) && decide (c ≤ 'f') then c.toNat - 'a'.toNat + 10
  else c.toNat - 'A'.toNat + 10

/-- Value of a list of hexadecimal digits. -/
def hexToNat (s : List Char) : ℕ := s.foldl (fun n c => n * 16 + hexDigitVal c) 0

/-- Value of a list of octal digits. -/
def octToNat (s : List Char) : ℕ := s.foldl (fun n c => n * 8 + (c.toNat - '0'.toNat)) 0

/-- Value of a list of binary digits. -/
def binToNat (s : List Char) : ℕ := s.foldl (fun n c => n * 2 + (c.toNat - '0'.toNat)) 0

/-- Result of the ECMAScript `Number` conversion of a string: `NaN`, an
infinity, or a finite value.  Finite values are kept as exact rationals,
the file-wide idealization of IEEE doubles; the overflow and underflow
of the conversion, which the validation logic can observe (`isNaN` via
the `Date` range check, falsiness of `0`), are modelled explicitly in
`applyDoubleLimits`. -/
inductive JsNum where
  | nan : JsNum
  | posInf : JsNum
  | negInf : JsNum
  | num : ℚ → JsNum
  deriving DecidableEq

/-- Negation of a conversion result, for a leading minus sign. -/
def JsNum.neg : JsNum → JsNum
  | nan => nan
  | posInf => negInf
  | negInf => posInf
  | num q => num (-q)

/-- The JavaScript `<` comparison of a conversion result against a
rational constant (`NaN` compares false; an infinity compares by
sign). -/
def JsNum.ltB : JsNum → ℚ → Bool
  | nan, _ => false
  | posInf, _ => false
  | negInf, _ => true
  | num q, c => decide (q < c)

/-- The JavaScript `>` comparison of a conversion result against a
rational constant. -/
def JsNum.gtB : JsNum → ℚ → Bool
  | nan, _ => false
  | posInf, _ => true
  | negInf, _ => false
  | num q, c => decide (c < q)

/-- Smallest magnitude that the string-to-double conversion rounds up to
an infinity: `2^1024 - 2^970`, the midpoint between the largest double
and `2^1024`. -/
def overflowBound : ℚ := ((2 ^ 1024 - 2 ^ 970 : ℕ) : ℚ)

/-- Largest positive magnitude that the string-to-double conversion
rounds down to zero: `2^(-1075)`, half the smallest positive
(subnormal) double.  (Stated by its raw numerator and denominator so
that it evaluates by kernel reduction; `underflowBound_eq` relates it to
the usual form.) -/
def underflowBound : ℚ := ⟨1, 2 ^ 1075, by norm_num, Nat.coprime_one_left _⟩

/-- The underflow bound is `1 / 2^1075`. -/
lemma underflowBound_eq : underflowBound = 1 / 2 ^ 1075 := by
  rw [underflowBound, Rat.mk'_eq_divInt, Rat.divInt_eq_div]
  push_cast
  norm_num

/-- Overflow and underflow of the conversion of a non-negative exact
value to an IEEE double: magnitudes of at least `overflowBound` convert
to an infinity and positive magnitudes of at most `underflowBound`
convert to zero.  Between the two bounds the value is kept exact (the
file-wide idealization of doubles; the validation logic only branches
on zero-ness, `NaN`-ness and the `Date` range, so the sub-ULP rounding
of in-range values is not observable in the properties proved here). -/
def applyDoubleLimits (q : ℚ) : JsNum :=
  if overflowBound ≤ q then JsNum.posInf
  else if q ≤ underflowBound then JsNum.num 0
  else JsNum.num q

/-- The exponent part of a decimal literal (`e`/`E`, an optional sign,
and at least one digit); the empty list is exponent `0`. -/
def expPart : List Char → Option ℤ
  | [] => some 0
  | c :: rest =>
    if c == 'e' || c == 'E' then
      match rest with
      | '+' :: ds => if ds ≠ [] ∧ ds.all Char.isDigit then some (digitsToNat ds) else none
      | '-' :: ds => if ds ≠ [] ∧ ds.all Char.isDigit then some (-(digitsToNat ds : ℤ)) else none
      | ds => if ds ≠ [] ∧ ds.all Char.isDigit then some (digitsToNat ds) else none
    else none

/-- Exact value of a decimal literal with integer part `ip`, fraction
digits `fds` and exponent `ex`: `(ip.fds) * 10 ^ ex`.  A non-negative
effective exponent stays inside `ℕ` (kernel-evaluable); otherwise the
value is an exact fraction. -/
def decValue (ip : ℕ) (fds : List Char) (ex : ℤ) : ℚ :=
  let e : ℤ := ex - fds.length
  let mant : ℕ := ip * 10 ^ fds.length + digitsToNat fds
  if 0 ≤ e then ((mant * 10 ^ e.toNat : ℕ) : ℚ)
  else (mant : ℚ) / ((10 ^ (-e).toNat : ℕ) : ℚ)

/-- The `StrUnsignedDecimalLiteral` production of the ECMAScript
string-to-number grammar: `Infinity`; or decimal digits with an
optional `.`-fraction and exponent; or a leading `.` followed by at
least one fraction digit and an optional exponent. -/
def jsStrUnsignedDecimal (t : List Char) : JsNum :=
  if t = "Infinity".toList then JsNum.posInf
  else
    let intDigits := t.takeWhile Char.isDigit
    match t.dropWhile Char.isDigit with
    | '.' :: rest2 =>
      let fracDigits := rest2.takeWhile Char.isDigit
      if intDigits = [] ∧ fracDigits = [] then JsNum.nan
      else
        match expPart (rest2.dropWhile Char.isDigit) with
        | some ex => applyDoubleLimits (decValue (digitsToNat intDigits) fracDigits ex)
        | none => JsNum.nan
    | rest =>
      if intDigits = [] then JsNum.nan
      else
        match expPart rest with
        | some ex => applyDoubleLimits (decValue (digitsToNat intDigits) [] ex)
        | none => JsNum.nan

/-- An unsigned `StrNumericLiteral`: a non-decimal integer literal
(`0x`/`0X` hexadecimal, `0o`/`0O` octal, `0b`/`0B` binary, which the
grammar only admits unsigned) or an unsigned decimal literal. -/
def jsUnsignedLiteral (t : List Char) : JsNum :=
  match t with
  | '0' :: c :: ds =>
    if c == 'x' || c == 'X' then
      if ds ≠ [] ∧ ds.all isHexDigitChar then applyDoubleLimits ((hexToNat ds : ℕ) : ℚ)
      else JsNum.nan
    else if c == 'o' || c == 'O' then
      if ds ≠ [] ∧ ds.all (fun x => decide ('0' ≤ x) && decide (x ≤ '7')) then
        applyDoubleLimits ((octToNat ds : ℕ) : ℚ)
      else JsNum.nan
    else if c == 'b' || c == 'B' then
      if ds ≠ [] ∧ ds.all (fun x => x == '0' || x == '1') then
        applyDoubleLimits ((binToNat ds : ℕ) : ℚ)
      else JsNum.nan
    else jsStrUnsignedDecimal t
  | _ => jsStrUnsignedDecimal t

/-- The ECMAScript `Number` conversion applied by
`date.split('-').map(Number)` (the `StringNumericLiteral` grammar):
whitespace is trimmed; the empty remainder converts to `+0`; otherwise
an optional sign followed by an unsigned decimal literal (with optional
fraction and exponent, or `Infinity`), or an unsigned non-decimal
(hex/octal/binary) integer literal.  Anything else is `NaN`. -/
def jsNumber (s : List Char) : JsNum :=
  let t := jsTrim s
  if t = [] then JsNum.num 0
  else
    match t with
    | '+' :: rest => jsStrUnsignedDecimal rest
    | '-' :: rest => (jsStrUnsignedDecimal rest).neg
    | _ => jsUnsignedLiteral t

/-- Component extraction from a split string: a missing part is
`undefined`, and `Number(undefined)` is `NaN`. -/
def getPart (parts : List (List Char)) (i : ℕ) : JsNum :=
  match parts[i]? with
  | none => JsNum.nan
  | some s => jsNumber s

/-- The `[year, month, day] = date.split('-').map(Number)` destructuring
of `src/unnamed/part_002`. -/
def dateComponents (date : String) : JsNum × JsNum × JsNum :=
  let parts := jsSplit '-' date.toList
  (getPart parts 0, getPart parts 1, getPart parts 2)

/-- The `[hours, minutes] = time.split(':').map(Number)` destructuring of
`src/unnamed/part_002`. -/
def timeComponents (time : String) : JsNum × JsNum :=
  let parts := jsSplit ':' time.toList
  (getPart parts 0, getPart parts 1)

/-- Gregorian leap-year rule. -/
def isLeapYear (y : ℤ) : Bool :=
  (y % 4 == 0 && y % 100 != 0) || y % 400 == 0

/-- Length of a month (`1 ≤ m ≤ 12`) in the proleptic Gregorian
calendar. -/
def daysInMonth (y m : ℤ) : ℤ :=
  if m = 2 then (if isLeapYear y then 29 else 28)
  else if m = 4 ∨ m = 6 ∨ m = 9 ∨ m = 11 then 30
  else 31

/-- Day count since 1970-01-01 of the civil date `(y, m, d)` with
`1 ≤ m ≤ 12` (the era-based civil-calendar algorithm), modelling the
ECMAScript `MakeDay` used by `Date.UTC`. -/
def daysFromCivil (y m d : ℤ) : ℤ :=
  let yAdj := y - (if m ≤ 2 then 1 else 0)
  let era := Int.fdiv yAdj 400
  let yoe := yAdj - era * 400
  let mp := (m + 9) % 12
  let doy := Int.fdiv (153 * mp + 2) 5 + d - 1
  let doe := yoe * 365 + Int.fdiv yoe 4 - Int.fdiv yoe 100 + doy
  era * 146097 + doe - 719468

/-- Epoch milliseconds of `Date.UTC(y, m - 1, d, hh, mm, 0)` for
integer components with `1 ≤ m ≤ 12` (month given 1-based here): the
raw ECMAScript time value, before the `TimeClip` range check applied by
`jsDateUTC`. -/
def epochOfCivil (y m d hh mm : ℤ) : ℤ :=
  (daysFromCivil y m d * 86400 + hh * 3600 + mm * 60) * 1000

/-- Month component (0-based, as returned by `getMonth()` on a
UTC-configured host) of the ECMAScript `Date` constructed from integer
components with `1 ≤ m ≤ 12`, `1 ≤ d ≤ 31` and in-range hour/minute
(`y` already adjusted by `makeFullYear`): the timestamp stays in month
`m` exactly when `d` is at most the month length, and otherwise rolls
into the following month (the overflow is at most 3 days).  The finite
`Date` range is checked separately (`jsDateUTC`), before `getMonth` is
consulted. -/
def jsDateGetMonth (y m d : ℤ) : ℤ :=
  if d ≤ daysInMonth y m then m - 1 else m % 12

/-- The ECMAScript `MakeFullYear` two-digit-year rule applied by both
the `Date` constructor and `Date.UTC`: a truncated year in `0..99`
denotes `1900..1999`. -/
def makeFullYear (y : ℤ) : ℤ := if 0 ≤ y ∧ y ≤ 99 then 1900 + y else y

/-- The ECMAScript `Date` range limit (`TimeClip`): time values of
magnitude above `8.64e15` milliseconds are clipped to `NaN`. -/
def maxTimeValue : ℤ := 8640000000000000

/-- Raw time value (epoch milliseconds before `TimeClip`) of the
`Date`/`Date.UTC` construction from finite number components, the month
given 0-based as the source passes `month - 1`: each component is
truncated toward zero (`ToIntegerOrInfinity`), the two-digit-year rule
`MakeFullYear` is applied, and the month index is normalized into the
year (`MakeDay`).  On a UTC-configured host the local-time `Date`
constructor of line 98 and the `Date.UTC` of line 28 of
`src/unnamed/part_002` produce the same value. -/
def jsTimeValue (y moIdx d hh mi : ℚ) : ℤ :=
  let yi := jsTrunc y
  let mIdx := jsTrunc moIdx
  let di := jsTrunc d
  let hhi := jsTrunc hh
  let mii := jsTrunc mi
  let yr := makeFullYear yi
  let ym := yr + Int.fdiv mIdx 12
  let mn := mIdx % 12
  (daysFromCivil ym (mn + 1) di * 86400 + hhi * 3600 + mii * 60) * 1000

/-- Model of a `Date` construction from finite number components
followed by the `TimeClip` range check: `none` is an Invalid Date
(`getTime()` is `NaN`). -/
def jsDateUTC (y moIdx d hh mi : ℚ) : Option ℤ :=
  if |jsTimeValue y moIdx d hh mi| ≤ maxTimeValue then some (jsTimeValue y moIdx d hh mi)
  else none

/-- Truncation of an integer cast is the integer itself. -/
lemma jsTrunc_intCast (z : ℤ) : jsTrunc ((z : ℤ) : ℚ) = z := by
  unfold jsTrunc
  rcases le_or_lt 0 ((z : ℚ)) with h | h
  · rw [if_pos h, Int.floor_intCast]
  · rw [if_neg (not_le.mpr h), Int.ceil_intCast]

/-- Truncation of an integer cast minus one. -/
lemma jsTrunc_intCast_sub_one (z : ℤ) : jsTrunc ((z : ℚ) - 1) = z - 1 := by
  rw [show ((z : ℚ) - 1) = ((z - 1 : ℤ) : ℚ) by push_cast; ring, jsTrunc_intCast]

/-- Evaluation of the raw time value on integer components (month passed
1-based as `m - 1`, as the source does). -/
lemma jsTimeValue_intCast (y m d hh mi : ℤ) :
    jsTimeValue (y : ℚ) ((m : ℚ) - 1) (d : ℚ) (hh : ℚ) (mi : ℚ) =
      (daysFromCivil (makeFullYear y + Int.fdiv (m - 1) 12) ((m - 1) % 12 + 1) d * 86400 +
        hh * 3600 + mi * 60) * 1000 := by
  unfold jsTimeValue
  rw [jsTrunc_intCast y, jsTrunc_intCast_sub_one m, jsTrunc_intCast d, jsTrunc_intCast hh,
    jsTrunc_intCast mi]

/-- For an in-range month the `MakeDay` year adjustment vanishes. -/
lemma monthIdx_fdiv {m : ℤ} (h1 : 1 ≤ m) (h2 : m ≤ 12) : Int.fdiv (m - 1) 12 = 0 := by
  rw [Int.fdiv_eq_ediv _ (by norm_num)]
  omega

/-- For an in-range month the `MakeDay` month reduction is the
identity. -/
lemma monthIdx_emod {m : ℤ} (h1 : 1 ≤ m) (h2 : m ≤ 12) : (m - 1) % 12 = m - 1 := by
  omega

/-- Model of `convertLocalToUTC` (`src/unnamed/part_002`, lines 1-37).
Lines 2-3 parse the date and time strings with `Number`; lines 5-26
compute values that the function never uses and are omitted.  For lines
28-34: `localAsUTC` is `Date.UTC(year, month-1, day, hours, minutes,
0)` — a non-finite component or a clipped (out-of-range) time value
gives an Invalid Date, modelled by `none`; the composite
`new Date(localAsUTC.toLocaleString('en-US', {timeZone})).getTime()` on
a UTC-configured host equals `localAsUTC + ofs localAsUTC`, where the
environment parameter `ofs` is the timezone's UTC-offset function (in
milliseconds, as a function of the instant); `offset` and the returned
value follow lines 33-34 verbatim. -/
def convertLocalToUTC (ofs : ℤ → ℤ) (date time : String) : Option ℤ :=
  match dateComponents date, timeComponents time with
  | (JsNum.num year, JsNum.num month, JsNum.num day), (JsNum.num hours, JsNum.num minutes) =>
    match jsDateUTC year (month - 1) day hours minutes with
    | none => none
    | some localAsUTC =>
      let localInTzDate := localAsUTC + ofs localAsUTC
      let offset := localAsUTC - localInTzDate
      some (localAsUTC - offset)
  | _, _ => none

/-- C5, code evaluation.  `convertLocalToUTC` applies the timezone
offset with the wrong sign: for any offset function it returns the
wall-clock epoch PLUS the zone offset (`localAsUTC + ofs localAsUTC`),
while the UTC instant corresponding to that wall-clock time is the
wall-clock epoch MINUS the offset.  Concretely, for 2023-07-01 12:00 in
a zone at UTC+2 (Europe/Paris in summer) it returns 14:00:00Z, not the
correct 10:00:00Z. -/
theorem convertLocalToUTC_adds_offset :
    (∀ ofs : ℤ → ℤ, convertLocalToUTC ofs "2023-07-01" "12:00" =
      some (epochOfCivil 2023 7 1 12 0 + ofs (epochOfCivil 2023 7 1 12 0))) ∧
    convertLocalToUTC (fun _ => 7200000) "2023-07-01" "12:00" =
      some (epochOfCivil 2023 7 1 14 0) ∧
    epochOfCivil 2023 7 1 14 0 ≠ epochOfCivil 2023 7 1 10 0 ∧
    epochOfCivil 2023 7 1 14 0 ≠ epochOfCivil 2023 7 1 12 0 - 7200000 := by
  have hd : dateComponents "2023-07-01" =
      (JsNum.num ((2023 : ℤ) : ℚ), JsNum.num ((7 : ℤ) : ℚ), JsNum.num ((1 : ℤ) : ℚ)) := by
    decide
  have ht : timeComponents "12:00" = (JsNum.num ((12 : ℤ) : ℚ), JsNum.num ((0 : ℤ) : ℚ)) := by
    decide
  have htv : jsTimeValue ((2023 : ℤ) : ℚ) (((7 : ℤ) : ℚ) - 1) ((1 : ℤ) : ℚ) ((12 : ℤ) : ℚ)
      ((0 : ℤ) : ℚ) = epochOfCivil 2023 7 1 12 0 := by
    rw [jsTimeValue_intCast]
    decide
  have hutc : jsDateUTC ((2023 : ℤ) : ℚ) (((7 : ℤ) : ℚ) - 1) ((1 : ℤ) : ℚ) ((12 : ℤ) : ℚ)
      ((0 : ℤ) : ℚ) = some (epochOfCivil 2023 7 1 12 0) := by
    unfold jsDateUTC
    rw [htv, if_pos (by decide)]
  have hgen : ∀ ofs : ℤ → ℤ, convertLocalToUTC ofs "2023-07-01" "12:00" =
      some (epochOfCivil 2023 7 1 12 0 + ofs (epochOfCivil 2023 7 1 12 0)) := by
    intro ofs
    unfold convertLocalToUTC
    rw [hd, ht]
    dsimp only
    rw [hutc]
    dsimp only
    rw [Option.some_inj]
    ring
  refine ⟨hgen, ?_, by decide, by decide⟩
  rw [hgen]
  rw [Option.some_inj]
  decide

/-- Result record of `validateDateTime`: a validity flag and an optional
structured reason string. -/
structure ValidationResult where
  valid : Bool
  error : Option String
  deriving DecidableEq

/-- Component-level body of `validateDateTime` (`src/unnamed/part_002`,
lines 73-111), after the destructuring of the parsed components.  Line
78: the falsy tests `!year || !month || !day` reject `NaN` and `±0`,
and `isNaN(hours) || isNaN(minutes)` rejects `NaN`.  Lines 82-96: the
range checks, with the JavaScript `<`/`>` semantics on possibly
infinite values (`JsNum.ltB`/`JsNum.gtB`; `NaN` cannot reach them).
Lines 98-100: the `Date` construction truncates the components
(`jsTimeValue`) and an out-of-range time value is an Invalid Date
(`isNaN(testDate.getTime())`); the match default covers the only
non-finite case that reaches line 98, an infinite year, whose
construction is likewise `NaN`.  Line 103 compares the integer
`getMonth()` result with the unrounded number `month - 1` (hence the
cast on the left of the `≠`): a fractional month always fails this
check, while fractional days, hours and minutes merely truncate. -/
def validateDateTimeParts (year month day hours minutes : JsNum) : ValidationResult :=
  if year = JsNum.nan ∨ year = JsNum.num 0 ∨ month = JsNum.nan ∨ month = JsNum.num 0 ∨
      day = JsNum.nan ∨ day = JsNum.num 0 ∨ hours = JsNum.nan ∨ minutes = JsNum.nan then
    ⟨false, some "Invalid date or time format"⟩
  else if month.ltB 1 || month.gtB 12 then ⟨false, some "Month must be between 1 and 12"⟩
  else if day.ltB 1 || day.gtB 31 then ⟨false, some "Day must be between 1 and 31"⟩
  else if hours.ltB 0 || hours.gtB 23 then ⟨false, some "Hour must be between 0 and 23"⟩
  else if minutes.ltB 0 || minutes.gtB 59 then ⟨false, some "Minute must be between 0 and 59"⟩
  else
    match year, month, day, hours, minutes with
    | JsNum.num y, JsNum.num m, JsNum.num d, JsNum.num hh, JsNum.num mm =>
      if maxTimeValue < |jsTimeValue y (m - 1) d hh mm| then
        ⟨false, some "Invalid date/time combination"⟩
      else if ((jsDateGetMonth (makeFullYear (jsTrunc y)) (jsTrunc (m - 1) + 1) (jsTrunc d) : ℤ) :
          ℚ) ≠ m - 1 then
        ⟨false, some "Invalid day for the given month"⟩
      else ⟨true, none⟩
    | _, _, _, _, _ => ⟨false, some "Invalid date/time combination"⟩

/-- Model of `validateDateTime` (`src/unnamed/part_002`, lines 73-111):
parse the two strings and validate the components.  The `timezone`
argument of the source is unused by the function body and omitted. -/
def validateDateTime (date time : String) : ValidationResult :=
  let (year, month, day) := dateComponents date
  let (hours, minutes) := timeComponents time
  validateDateTimeParts year month day hours minutes

/-- The month round-trip check succeeds exactly on calendar-valid days. -/
lemma jsDateGetMonth_eq_iff {y m d : ℤ} (hm1 : 1 ≤ m) (hm2 : m ≤ 12) :
    jsDateGetMonth y m d = m - 1 ↔ d ≤ daysInMonth y m := by
  unfold jsDateGetMonth
  by_cases hd : d ≤ daysInMonth y m
  · simp [hd]
  · simp only [hd, if_false]
    constructor
    · intro h
      exfalso
      omega
    · intro h
      exact h.elim

/-- Bound on the month lengths. -/
lemma daysInMonth_le {y m : ℤ} : daysInMonth y m ≤ 31 := by
  unfold daysInMonth
  split_ifs <;> omega

/-- Evaluation of the component validation when all five components are
finite numbers. -/
lemma vdpNum (y m d hh mm : ℚ) :
    validateDateTimeParts (JsNum.num y) (JsNum.num m) (JsNum.num d) (JsNum.num hh)
        (JsNum.num mm) =
      if y = 0 ∨ m = 0 ∨ d = 0 then ⟨false, some "Invalid date or time format"⟩
      else if m < 1 ∨ 12 < m then ⟨false, some "Month must be between 1 and 12"⟩
      else if d < 1 ∨ 31 < d then ⟨false, some "Day must be between 1 and 31"⟩
      else if hh < 0 ∨ 23 < hh then ⟨false, some "Hour must be between 0 and 23"⟩
      else if mm < 0 ∨ 59 < mm then ⟨false, some "Minute must be between 0 and 59"⟩
      else if maxTimeValue < |jsTimeValue y (m - 1) d hh mm| then
        ⟨false, some "Invalid date/time combination"⟩
      else if ((jsDateGetMonth (makeFullYear (jsTrunc y)) (jsTrunc (m - 1) + 1) (jsTrunc d) : ℤ) :
          ℚ) ≠ m - 1 then
        ⟨false, some "Invalid day for the given month"⟩
      else ⟨true, none⟩ := by
  have hguard : (JsNum.num y = JsNum.nan ∨ JsNum.num y = JsNum.num 0 ∨
      JsNum.num m = JsNum.nan ∨ JsNum.num m = JsNum.num 0 ∨
      JsNum.num d = JsNum.nan ∨ JsNum.num d = JsNum.num 0 ∨
      JsNum.num hh = JsNum.nan ∨ JsNum.num mm = JsNum.nan) ↔ (y = 0 ∨ m = 0 ∨ d = 0) := by
    simp
  have hm : ((JsNum.num m).ltB 1 || (JsNum.num m).gtB 12) = true ↔ (m < 1 ∨ 12 < m) := by
    simp [JsNum.ltB, JsNum.gtB]
  have hd : ((JsNum.num d).ltB 1 || (JsNum.num d).gtB 31) = true ↔ (d < 1 ∨ 31 < d) := by
    simp [JsNum.ltB, JsNum.gtB]
  have hh2 : ((JsNum.num hh).ltB 0 || (JsNum.num hh).gtB 23) = true ↔ (hh < 0 ∨ 23 < hh) := by
    simp [JsNum.ltB, JsNum.gtB]
  have hmm2 : ((JsNum.num mm).ltB 0 || (JsNum.num mm).gtB 59) = true ↔ (mm < 0 ∨ 59 < mm) := by
    simp [JsNum.ltB, JsNum.gtB]
  unfold validateDateTimeParts
  dsimp only
  simp only [hguard, hm, hd, hh2, hmm2]

/-- A valid result forces all five components to be finite numbers. -/
lemma vdpValidShape (oy om od ohh omm : JsNum)
    (h : (validateDateTimeParts oy om od ohh omm).valid = true) :
    (∃ y : ℚ, oy = JsNum.num y) ∧ (∃ m : ℚ, om = JsNum.num m) ∧ (∃ d : ℚ, od = JsNum.num d) ∧
    (∃ hh : ℚ, ohh = JsNum.num hh) ∧ (∃ mm : ℚ, omm = JsNum.num mm) := by
  revert h
  unfold validateDateTimeParts
  split_ifs <;> intro h
  · exact absurd h (by simp)
  · exact absurd h (by simp)
  · exact absurd h (by simp)
  · exact absurd h (by simp)
  · exact absurd h (by simp)
  · revert h
    split
    · intro _
      exact ⟨⟨_, rfl⟩, ⟨_, rfl⟩, ⟨_, rfl⟩, ⟨_, rfl⟩, ⟨_, rfl⟩⟩
    · intro h
      exact absurd h (by simp)

/-- Characterization of the component-level validation. -/
lemma validateDateTimeParts_valid_iff (oy om od ohh omm : JsNum) :
    (validateDateTimeParts oy om od ohh omm).valid = true ↔
      ∃ y m d hh mm : ℚ, oy = JsNum.num y ∧ om = JsNum.num m ∧ od = JsNum.num d ∧
        ohh = JsNum.num hh ∧ omm = JsNum.num mm ∧
        y ≠ 0 ∧ 1 ≤ m ∧ m ≤ 12 ∧ 1 ≤ d ∧ d ≤ 31 ∧ 0 ≤ hh ∧ hh ≤ 23 ∧ 0 ≤ mm ∧ mm ≤ 59 ∧
        |jsTimeValue y (m - 1) d hh mm| ≤ maxTimeValue ∧
        ((jsDateGetMonth (makeFullYear (jsTrunc y)) (jsTrunc (m - 1) + 1) (jsTrunc d) : ℤ) : ℚ) =
          m - 1 := by
  constructor
  · intro hv
    obtain ⟨⟨y, rfl⟩, ⟨m, rfl⟩, ⟨d, rfl⟩, ⟨hh, rfl⟩, ⟨mm, rfl⟩⟩ :=
      vdpValidShape _ _ _ _ _ hv
    rw [vdpNum] at hv
    split_ifs at hv with h0 h1 h2 h3 h4 h5 h6
    all_goals try simp at hv
    push_neg at h0 h1 h2 h3 h4
    exact ⟨y, m, d, hh, mm, rfl, rfl, rfl, rfl, rfl, h0.1,
      h1.1, h1.2, h2.1, h2.2, h3.1, h3.2, h4.1, h4.2,
      not_lt.mp h5, not_ne_iff.mp h6⟩
  · rintro ⟨y, m, d, hh, mm, rfl, rfl, rfl, rfl, rfl,
      hy0, hm1, hm2, hd1, hd2, hh1, hh2, hmm1, hmm2, hclip, hmon⟩
    rw [vdpNum]
    rw [if_neg (by push_neg; exact ⟨hy0, by linarith, by linarith⟩),
      if_neg (by push_neg; exact ⟨by linarith, by linarith⟩),
      if_neg (by push_neg; exact ⟨by linarith, by linarith⟩),
      if_neg (by push_neg; exact ⟨by linarith, by linarith⟩),
      if_neg (by push_neg; exact ⟨by linarith, by linarith⟩),
      if_neg (not_lt.mpr hclip), if_neg (not_ne_iff.mpr hmon)]

/-- Every rejection of the component-level validation carries a reason. -/
lemma validateDateTimeParts_error (oy om od ohh omm : JsNum) :
    (validateDateTimeParts oy om od ohh omm).valid = false →
    ∃ msg : String, (validateDateTimeParts oy om od ohh omm).error = some msg := by
  unfold validateDateTimeParts
  split_ifs <;> intro h
  · exact ⟨_, rfl⟩
  · exact ⟨_, rfl⟩
  · exact ⟨_, rfl⟩
  · exact ⟨_, rfl⟩
  · exact ⟨_, rfl⟩
  · revert h
    split
    all_goals intro h
    all_goals first
      | exact ⟨_, rfl⟩
      | (split_ifs at h ⊢ <;> first | exact ⟨_, rfl⟩ | exact absurd h (by simp))

/-- Evaluation of the component validation on in-range integer
components. -/
lemma validateDateTimeParts_intCast (y m d hh mi : ℤ)
    (hy : y ≠ 0) (hm1 : 1 ≤ m) (hm2 : m ≤ 12) (hd1 : 1 ≤ d) (hd2 : d ≤ 31)
    (hh1 : 0 ≤ hh) (hh2 : hh ≤ 23) (hmi1 : 0 ≤ mi) (hmi2 : mi ≤ 59) :
    validateDateTimeParts (JsNum.num (y : ℚ)) (JsNum.num (m : ℚ)) (JsNum.num (d : ℚ))
        (JsNum.num (hh : ℚ)) (JsNum.num (mi : ℚ)) =
      if maxTimeValue < |epochOfCivil (makeFullYear y) m d hh mi| then
        ⟨false, some "Invalid date/time combination"⟩
      else if d ≤ daysInMonth (makeFullYear y) m then ⟨true, none⟩
      else ⟨false, some "Invalid day for the given month"⟩ := by
  have htv : jsTimeValue (y : ℚ) ((m : ℚ) - 1) (d : ℚ) (hh : ℚ) (mi : ℚ) =
      epochOfCivil (makeFullYear y) m d hh mi := by
    rw [jsTimeValue_intCast, monthIdx_fdiv hm1 hm2, monthIdx_emod hm1 hm2, add_zero,
      sub_add_cancel]
    rfl
  have hmon : jsTrunc ((m : ℚ) - 1) + 1 = m := by rw [jsTrunc_intCast_sub_one]; ring
  have hg0 : ¬((y : ℚ) = 0 ∨ (m : ℚ) = 0 ∨ (d : ℚ) = 0) := by
    push_neg
    refine ⟨by exact_mod_cast hy, ?_, ?_⟩
    · exact_mod_cast (show m ≠ 0 by omega)
    · exact_mod_cast (show d ≠ 0 by omega)
  have hg1 : ¬((m : ℚ) < 1 ∨ 12 < (m : ℚ)) := by
    push_neg
    exact ⟨by exact_mod_cast hm1, by exact_mod_cast hm2⟩
  have hg2 : ¬((d : ℚ) < 1 ∨ 31 < (d : ℚ)) := by
    push_neg
    exact ⟨by exact_mod_cast hd1, by exact_mod_cast hd2⟩
  have hg3 : ¬((hh : ℚ) < 0 ∨ 23 < (hh : ℚ)) := by
    push_neg
    exact ⟨by exact_mod_cast hh1, by exact_mod_cast hh2⟩
  have hg4 : ¬((mi : ℚ) < 0 ∨ 59 < (mi : ℚ)) := by
    push_neg
    exact ⟨by exact_mod_cast hmi1, by exact_mod_cast hmi2⟩
  rw [vdpNum, if_neg hg0, if_neg hg1, if_neg hg2, if_neg hg3, if_neg hg4, htv,
    jsTrunc_intCast y, hmon, jsTrunc_intCast d]
  by_cases hclip : maxTimeValue < |epochOfCivil (makeFullYear y) m d hh mi|
  · rw [if_pos hclip, if_pos hclip]
  · rw [if_neg hclip, if_neg hclip]
    by_cases hroll : d ≤ daysInMonth (makeFullYear y) m
    · rw [if_pos hroll,
        if_neg (not_ne_iff.mpr
          (by rw [(jsDateGetMonth_eq_iff hm1 hm2).mpr hroll]; push_cast; ring))]
    · rw [if_neg hroll,
        if_pos (fun hc => hroll ((jsDateGetMonth_eq_iff hm1 hm2).mp (by exact_mod_cast hc)))]

/-- Evaluation at the spec scenario 2023-02-30: rejected as an invalid
day for the month. -/
lemma validateDateTime_feb30_eval :
    validateDateTime "2023-02-30" "12:00" = ⟨false, some "Invalid day for the given month"⟩ := by
  have hd : dateComponents "2023-02-30" =
      (JsNum.num ((2023 : ℤ) : ℚ), JsNum.num ((2 : ℤ) : ℚ), JsNum.num ((30 : ℤ) : ℚ)) := by
    decide
  have ht : timeComponents "12:00" = (JsNum.num ((12 : ℤ) : ℚ), JsNum.num ((0 : ℤ) : ℚ)) := by
    decide
  have hv : validateDateTime "2023-02-30" "12:00" =
      validateDateTimeParts (JsNum.num ((2023 : ℤ) : ℚ)) (JsNum.num ((2 : ℤ) : ℚ))
        (JsNum.num ((30 : ℤ) : ℚ)) (JsNum.num ((12 : ℤ) : ℚ)) (JsNum.num ((0 : ℤ) : ℚ)) := by
    unfold validateDateTime
    rw [hd, ht]
  rw [hv, validateDateTimeParts_intCast 2023 2 30 12 0 (by decide) (by decide) (by decide)
    (by decide) (by decide) (by decide) (by decide) (by decide) (by decide)]
  decide

/-- Evaluation at an exponent-notation year: `Number("1e3")` is `1000`,
so the date is accepted. -/
lemma validateDateTime_expYear_eval :
    validateDateTime "1e3-02-10" "12:00" = ⟨true, none⟩ := by
  have hd : dateComponents "1e3-02-10" =
      (JsNum.num ((1000 : ℤ) : ℚ), JsNum.num ((2 : ℤ) : ℚ), JsNum.num ((10 : ℤ) : ℚ)) := by
    decide
  have ht : timeComponents "12:00" = (JsNum.num ((12 : ℤ) : ℚ), JsNum.num ((0 : ℤ) : ℚ)) := by
    decide
  have hv : validateDateTime "1e3-02-10" "12:00" =
      validateDateTimeParts (JsNum.num ((1000 : ℤ) : ℚ)) (JsNum.num ((2 : ℤ) : ℚ))
        (JsNum.num ((10 : ℤ) : ℚ)) (JsNum.num ((12 : ℤ) : ℚ)) (JsNum.num ((0 : ℤ) : ℚ)) := by
    unfold validateDateTime
    rw [hd, ht]
  rw [hv, validateDateTimeParts_intCast 1000 2 10 12 0 (by decide) (by decide) (by decide)
    (by decide) (by decide) (by decide) (by decide) (by decide) (by decide)]
  decide

/-- Evaluation at a hexadecimal year: `Number("0x7E7")` is `2023`, so
the date is accepted. -/
lemma validateDateTime_hexYear_eval :
    validateDateTime "0x7E7-02-10" "12:00" = ⟨true, none⟩ := by
  have hd : dateComponents "0x7E7-02-10" =
      (JsNum.num ((2023 : ℤ) : ℚ), JsNum.num ((2 : ℤ) : ℚ), JsNum.num ((10 : ℤ) : ℚ)) := by
    decide
  have ht : timeComponents "12:00" = (JsNum.num ((12 : ℤ) : ℚ), JsNum.num ((0 : ℤ) : ℚ)) := by
    decide
  have hv : validateDateTime "0x7E7-02-10" "12:00" =
      validateDateTimeParts (JsNum.num ((2023 : ℤ) : ℚ)) (JsNum.num ((2 : ℤ) : ℚ))
        (JsNum.num ((10 : ℤ) : ℚ)) (JsNum.num ((12 : ℤ) : ℚ)) (JsNum.num ((0 : ℤ) : ℚ)) := by
    unfold validateDateTime
    rw [hd, ht]
  rw [hv, validateDateTimeParts_intCast 2023 2 10 12 0 (by decide) (by decide) (by decide)
    (by decide) (by decide) (by decide) (by decide) (by decide) (by decide)]
  decide

/-- C7, amended.  `validateDateTime` is total (a result record, never an
exception) and returns `valid` exactly for components that `Number`
parses to finite values (the full ECMAScript numeric grammar: decimal
literals with optional fraction and exponent, and hex/octal/binary
integer literals) with a nonzero year, month in 1..12, day in 1..31,
hour in 0..23 and minute in 0..59 (as unrounded numbers), such that the
constructed `Date` — which truncates the components, applies the
1900-shift to years 0..99 and enforces the ±8.64e15 ms range — lands in
month `month - 1`; every rejection carries a structured reason string.
(The year-0 exclusion is forced by the source's falsy `!year` test, see
the counterexample; a fractional month always fails the month
round-trip check, while fractional days/hours/minutes merely
truncate.) -/
theorem validateDateTime_characterization (date time : String) :
    ((validateDateTime date time).valid = true ↔
      (∃ y m d hh mm : ℚ,
        (dateComponents date).1 = JsNum.num y ∧ (dateComponents date).2.1 = JsNum.num m ∧
        (dateComponents date).2.2 = JsNum.num d ∧
        (timeComponents time).1 = JsNum.num hh ∧ (timeComponents time).2 = JsNum.num mm ∧
        y ≠ 0 ∧ 1 ≤ m ∧ m ≤ 12 ∧ 1 ≤ d ∧ d ≤ 31 ∧ 0 ≤ hh ∧ hh ≤ 23 ∧ 0 ≤ mm ∧ mm ≤ 59 ∧
        |jsTimeValue y (m - 1) d hh mm| ≤ maxTimeValue ∧
        ((jsDateGetMonth (makeFullYear (jsTrunc y)) (jsTrunc (m - 1) + 1) (jsTrunc d) : ℤ) :
          ℚ) = m - 1)) ∧
    ((validateDateTime date time).valid = false →
      ∃ msg : String, (validateDateTime date time).error = some msg) :=
  ⟨validateDateTimeParts_valid_iff _ _ _ _ _, validateDateTimeParts_error _ _ _ _ _⟩

/-- Witness for C7: the spec scenario 2023-02-30 is rejected with a
structured reason, and the ECMAScript numeric syntaxes reach the
validator (an exponent-notation and a hexadecimal year are accepted). -/
theorem validateDateTime_characterization_witness :
    (validateDateTime "2023-02-30" "12:00").valid = false ∧
    (∃ msg : String, (validateDateTime "2023-02-30" "12:00").error = some msg) ∧
    validateDateTime "2023-02-30" "12:00" = ⟨false, some "Invalid day for the given month"⟩ ∧
    validateDateTime "1e3-02-10" "12:00" = ⟨true, none⟩ ∧
    validateDateTime "0x7E7-02-10" "12:00" = ⟨true, none⟩ :=
  ⟨by rw [validateDateTime_feb30_eval],
    (validateDateTime_characterization "2023-02-30" "12:00").2
      (by rw [validateDateTime_feb30_eval]),
    validateDateTime_feb30_eval, validateDateTime_expYear_eval, validateDateTime_hexYear_eval⟩

/-- C7, counterexample.  The date string "0000-01-01" denotes a
well-formed calendar date (year 0, January 1, all components in range),
but the source's falsy `!year` test rejects year 0 with the format
error, so `validateDateTime` is not valid on every well-formed calendar
date/time. -/
theorem validateDateTime_year_zero_counterexample :
    (dateComponents "0000-01-01").1 = JsNum.num 0 ∧
    (dateComponents "0000-01-01").2.1 = JsNum.num 1 ∧
    (dateComponents "0000-01-01").2.2 = JsNum.num 1 ∧
    (timeComponents "12:00").1 = JsNum.num 12 ∧ (timeComponents "12:00").2 = JsNum.num 0 ∧
    (1 : ℤ) ≤ daysInMonth 0 1 ∧
    validateDateTime "0000-01-01" "12:00" =
      ⟨false, some "Invalid date or time format"⟩ := by
  decide

/-- Resolved geographic location, the input value object consumed by the
`/sunkey` handler after geocoding. -/
structure GeoLocation where
  city : String
  country : String
  latitude : ℚ
  longitude : ℚ
  timezone : String

/-- Model of `calculateSunLongitude` from `src/utils/suncalc.js` (lines
16-26): the `astronomy-engine` value `Ecliptic(utcDate).elon` is the
environment parameter `ephem`, a pure function of the UTC instant;
negative values are corrected by adding 360. -/
def calculateSunLongitudeEngine {α : Type} [LinearOrderedField α]
    (ephem : ℤ → α) (utcDate : ℤ) : α :=
  let longitude := ephem utcDate
  if longitude < 0 then longitude + 360 else longitude

/-- Response record of the `/sunkey` computation (the fields produced by
`src/unnamed/part_000`, lines 108-131, without the serialization-only
rounding). -/
structure SunKeyResult (α : Type) where
  utcDateTime : ℤ
  sunLongitude : α
  zodiacSign : Option String
  geneKey : ℕ
  shadow : String
  gift : String
  siddhi : String
  latitude : ℚ
  longitude : ℚ
  timezone : String

/-- Model of the `/sunkey` computation pipeline of
`src/unnamed/part_000` (lines 27-33 validation and lines 73-131):
validate, resolve the UTC instant with `convertLocalToUTC` using
`location.timezone`, compute the sun longitude, map to a Gene Key, look
up the static Gene Key record (`geneKeysData`, the environment parameter
`gkData`; a missing record is the 500 response, `none`), derive the
zodiac sign, and assemble the response.  The caching and geocoding
collaborators are outside the pipeline: `loc` is the already-resolved
location. -/
def resolveSunKey {α : Type} [LinearOrderedField α] [FloorRing α]
    (ofsOf : String → ℤ → ℤ) (ephem : ℤ → α)
    (gkData : ℕ → Option (String × String × String))
    (date time : String) (loc : GeoLocation) : Option (SunKeyResult α) :=
  if (validateDateTime date time).valid = false then none
  else
    match convertLocalToUTC (ofsOf loc.timezone) date time with
    | none => none
    | some utc =>
      let sunLongitude := calculateSunLongitudeEngine ephem utc
      match mapLongitudeToGeneKey sunLongitude with
      | none => none
      | some gk =>
        match gkData gk with
        | none => none
        | some info =>
          some { utcDateTime := utc
                 sunLongitude := sunLongitude
                 zodiacSign := getZodiacSign sunLongitude
                 geneKey := gk
                 shadow := info.1
                 gift := info.2.1
                 siddhi := info.2.2
                 latitude := loc.latitude
                 longitude := loc.longitude
                 timezone := loc.timezone }

/-- C6.  The resolve pipeline is a pure function of its inputs — two
calls with identical inputs give identical results (all environment
dependencies are explicit parameters; there is no clock or hidden
state) — and two calls differing only in the location's
latitude/longitude (same timezone) agree on the `sunLongitude`,
`zodiacSign` and `geneKey` fields. -/
theorem resolveSunKey_pure_location_independent {α : Type}
    [LinearOrderedField α] [FloorRing α]
    (ofsOf : String → ℤ → ℤ) (ephem : ℤ → α)
    (gkData : ℕ → Option (String × String × String))
    (date time : String) (locA locB : GeoLocation)
    (h : locA.timezone = locB.timezone) :
    resolveSunKey ofsOf ephem gkData date time locA =
      resolveSunKey ofsOf ephem gkData date time locA ∧
    (resolveSunKey ofsOf ephem gkData date time locA).map
        (fun r => (r.sunLongitude, r.zodiacSign, r.geneKey)) =
      (resolveSunKey ofsOf ephem gkData date time locB).map
        (fun r => (r.sunLongitude, r.zodiacSign, r.geneKey)) := by
  refine ⟨rfl, ?_⟩
  unfold resolveSunKey
  rw [h]
  by_cases hval : (validateDateTime date time).valid = false
  · simp only [if_pos hval]
  · simp only [if_neg hval]
    cases hconv : convertLocalToUTC (ofsOf locB.timezone) date time with
    | none => rfl
    | some utc =>
      dsimp only
      cases hmap : mapLongitudeToGeneKey (calculateSunLongitudeEngine ephem utc) with
      | none => rfl
      | some gk =>
        dsimp only
        cases hgk : gkData gk with
        | none => rfl
        | some info => rfl

/-- Witness for C6: two locations with different coordinates in the same
timezone, with concrete environment functions. -/
theorem resolveSunKey_pure_location_independent_witness :
    (GeoLocation.mk "Paris" "France" 4885 235 "UTC").timezone =
      (GeoLocation.mk "Lima" "Peru" (-1205) (-7704) "UTC").timezone ∧
    (resolveSunKey (fun _ _ => 0) (fun _ => (100 : ℚ)) (fun _ => some ("S", "G", "D"))
        "2000-01-01" "12:00" (GeoLocation.mk "Paris" "France" 4885 235 "UTC") =
      resolveSunKey (fun _ _ => 0) (fun _ => (100 : ℚ)) (fun _ => some ("S", "G", "D"))
        "2000-01-01" "12:00" (GeoLocation.mk "Paris" "France" 4885 235 "UTC")) ∧
    (resolveSunKey (fun _ _ => 0) (fun _ => (100 : ℚ)) (fun _ => some ("S", "G", "D"))
        "2000-01-01" "12:00" (GeoLocation.mk "Paris" "France" 4885 235 "UTC")).map
        (fun r => (r.sunLongitude, r.zodiacSign, r.geneKey)) =
      (resolveSunKey (fun _ _ => 0) (fun _ => (100 : ℚ)) (fun _ => some ("S", "G", "D"))
        "2000-01-01" "12:00" (GeoLocation.mk "Lima" "Peru" (-1205) (-7704) "UTC")).map
        (fun r => (r.sunLongitude, r.zodiacSign, r.geneKey)) :=
  ⟨rfl,
    (resolveSunKey_pure_location_independent (fun _ _ => 0) (fun _ => (100 : ℚ))
      (fun _ => some ("S", "G", "D")) "2000-01-01" "12:00"
      (GeoLocation.mk "Paris" "France" 4885 235 "UTC")
      (GeoLocation.mk "Lima" "Peru" (-1205) (-7704) "UTC") rfl).1,
    (resolveSunKey_pure_location_independent (fun _ _ => 0) (fun _ => (100 : ℚ))
      (fun _ => some ("S", "G", "D")) "2000-01-01" "12:00"
      (GeoLocation.mk "Paris" "France" 4885 235 "UTC")
      (GeoLocation.mk "Lima" "Peru" (-1205) (-7704) "UTC") rfl).2⟩

/-- Integer part of the Julian Day Number computation of
`getJulianDayNumber` (`src/unnamed/part_001`, lines 12-17): the civil
components are those read by `getFullYear`/`getMonth`/`getDate` on a
UTC-configured host; `Math.floor` of a quotient of integers is the
floor division. -/
def jdnInt (y M d : ℤ) : ℤ :=
  let a := Int.fdiv (14 - M) 12
  let yy := y + 4800 - a
  let m := M + 12 * a - 3
  d + Int.fdiv (153 * m + 2) 5 + 365 * yy + Int.fdiv yy 4 -
    Int.fdiv yy 100 + Int.fdiv yy 400 - 32045

/-- Model of `getJulianDayNumber` (`src/unnamed/part_001`, lines 11-24):
the integer Julian Day Number plus the fractional day from the time of
day (lines 20-21). -/
def getJulianDayNumber {α : Type} [LinearOrderedField α]
    (y M d hh mm ss : ℤ) : α :=
  (jdnInt y M d : α) + (((hh : α) + (mm : α) / 60 + (ss : α) / 3600) - 12) / 24

/-- Model of the analytic `calculateSunLongitude`
(`src/unnamed/part_001`, lines 32-59): mean longitude plus two-term
equation of center, from days since J2000.0.  `Math.PI` and `Math.sin`
are the environment parameters `piv` and `sinf` (instantiated with
`Real.pi` and `Real.sin` in the theorems); the decimal constants are
written as exact fractions. -/
def calculateSunLongitude {α : Type} [LinearOrderedField α] [FloorRing α]
    (piv : α) (sinf : α → α) (y M d hh mm ss : ℤ) : α :=
  let jd := getJulianDayNumber (α := α) y M d hh mm ss
  let n := jd - 2451545
  let L0 := jsMod (280460 / 1000 + 9856474 / 10000000 * n) 360
  let L := if L0 < 0 then L0 + 360 else L0
  let g0 := jsMod (357528 / 1000 + 9856003 / 10000000 * n) 360
  let g := if g0 < 0 then g0 + 360 else g0
  let gRad := g * piv / 180
  let lambda0 := L + 1915 / 1000 * sinf gRad + 20 / 1000 * sinf (2 * gRad)
  let lam := jsMod lambda0 360
  if lam < 0 then lam + 360 else lam

/-- A value already in `[0, m)` is left unchanged by the JavaScript
remainder. -/
lemma jsMod_of_mem {α : Type} [LinearOrderedField α] [FloorRing α]
    {x m : α} (h0 : 0 ≤ x) (h1 : x < m) (hm : 0 < m) : jsMod x m = x := by
  have hq0 : (0 : α) ≤ x / m := div_nonneg h0 hm.le
  have hq1 : x / m < 1 := (div_lt_one hm).mpr h1
  rw [jsMod, jsTrunc_of_nonneg hq0, Int.floor_eq_zero_iff.mpr ⟨hq0, hq1⟩]
  push_cast
  ring

/-- The Julian Day Number of 2000-01-01 12:00 UTC is exactly the J2000.0
epoch value 2451545.0. -/
lemma getJulianDayNumber_J2000 : getJulianDayNumber (α := ℝ) 2000 1 1 12 0 0 = 2451545 := by
  have hj : jdnInt 2000 1 1 = 2451545 := by decide
  rw [getJulianDayNumber, hj]
  norm_num

/-- Staged evaluation of the analytic sun longitude: once the two
`jsMod` reductions, the sign corrections and the final normalization are
discharged, the value is the equation-of-center expression. -/
lemma calculateSunLongitude_eq (piv : ℝ) (sinf : ℝ → ℝ) (y M d hh mm ss : ℤ)
    (L g lam : ℝ)
    (hL : jsMod (280460 / 1000 + 9856474 / 10000000 *
      (getJulianDayNumber (α := ℝ) y M d hh mm ss - 2451545)) 360 = L)
    (hLpos : ¬ L < 0)
    (hg : jsMod (357528 / 1000 + 9856003 / 10000000 *
      (getJulianDayNumber (α := ℝ) y M d hh mm ss - 2451545)) 360 = g)
    (hgpos : ¬ g < 0)
    (hlam : L + 1915 / 1000 * sinf (g * piv / 180) +
      20 / 1000 * sinf (2 * (g * piv / 180)) = lam)
    (hlam0 : 0 ≤ lam) (hlam1 : lam < 360) :
    calculateSunLongitude piv sinf y M d hh mm ss = lam := by
  simp only [calculateSunLongitude]
  rw [hL, if_neg hLpos, hg, if_neg hgpos, hlam,
    jsMod_of_mem hlam0 hlam1 (by norm_num), if_neg (not_lt.mpr hlam0)]

/-- Numeric bounds for the analytic sun longitude at 2000-01-01 12:00
UTC: the value lies strictly between 280.37 and 280.38 degrees. -/
lemma calculateSunLongitude_J2000_bounds :
    (28037 / 100 : ℝ) < calculateSunLongitude Real.pi Real.sin 2000 1 1 12 0 0 ∧
    calculateSunLongitude Real.pi Real.sin 2000 1 1 12 0 0 < (28038 / 100 : ℝ) := by
  have hπ1 : (3.141592 : ℝ) < Real.pi := Real.pi_gt_d6
  have hπ2 : Real.pi < (3.141593 : ℝ) := Real.pi_lt_d6
  set θ : ℝ := 2472 / 1000 * Real.pi / 180 with hθdef
  have hθpos : 0 < θ := by
    rw [hθdef]
    positivity
  have hθlo : (431445 / 10000000 : ℝ) < θ := by
    rw [hθdef]
    nlinarith
  have hθhi : θ < (431446 / 10000000 : ℝ) := by
    rw [hθdef]
    nlinarith
  have hθle1 : θ ≤ 1 := by linarith
  have h2θpos : 0 < 2 * θ := by linarith
  have h2θle1 : 2 * θ ≤ 1 := by linarith
  have hs1lt : Real.sin θ < θ := Real.sin_lt hθpos
  have hs1gt : θ - θ ^ 3 / 4 < Real.sin θ := Real.sin_gt_sub_cube hθpos hθle1
  have hs2lt : Real.sin (2 * θ) < 2 * θ := Real.sin_lt h2θpos
  have hs2gt : 2 * θ - (2 * θ) ^ 3 / 4 < Real.sin (2 * θ) :=
    Real.sin_gt_sub_cube h2θpos h2θle1
  have hcube : θ ^ 3 < (431446 / 10000000 : ℝ) ^ 3 :=
    pow_lt_pow_left hθhi hθpos.le (by norm_num)
  have hsinθlo : (431244 / 10000000 : ℝ) < Real.sin θ := by nlinarith
  have hsinθhi : Real.sin θ < (431446 / 10000000 : ℝ) := by linarith
  have hsin2θlo : (861283 / 10000000 : ℝ) < Real.sin (2 * θ) := by nlinarith
  have hsin2θhi : Real.sin (2 * θ) < (862892 / 10000000 : ℝ) := by linarith
  have hs1 : Real.sin ((357528 / 1000 : ℝ) * Real.pi / 180) = -Real.sin θ := by
    rw [(Real.sin_sub_two_pi ((357528 / 1000 : ℝ) * Real.pi / 180)).symm,
      show (357528 / 1000 : ℝ) * Real.pi / 180 - 2 * Real.pi = -θ by rw [hθdef]; ring,
      Real.sin_neg]
  have hs2 : Real.sin (2 * ((357528 / 1000 : ℝ) * Real.pi / 180)) = -Real.sin (2 * θ) := by
    have e : Real.sin (2 * ((357528 / 1000 : ℝ) * Real.pi / 180)) =
        Real.sin (2 * ((357528 / 1000 : ℝ) * Real.pi / 180) - 2 * Real.pi - 2 * Real.pi) := by
      rw [Real.sin_sub_two_pi, Real.sin_sub_two_pi]
    rw [e, show 2 * ((357528 / 1000 : ℝ) * Real.pi / 180) - 2 * Real.pi - 2 * Real.pi
        = -(2 * θ) by rw [hθdef]; ring, Real.sin_neg]
  have hmain : calculateSunLongitude Real.pi Real.sin 2000 1 1 12 0 0 =
      280460 / 1000 + 1915 / 1000 * Real.sin ((357528 / 1000 : ℝ) * Real.pi / 180) +
        20 / 1000 * Real.sin (2 * ((357528 / 1000 : ℝ) * Real.pi / 180)) := by
    refine calculateSunLongitude_eq Real.pi Real.sin 2000 1 1 12 0 0
      (280460 / 1000) (357528 / 1000) _ ?_ (by norm_num) ?_ (by norm_num) rfl ?_ ?_
    · rw [getJulianDayNumber_J2000,
        show (280460 / 1000 : ℝ) + 9856474 / 10000000 * ((2451545 : ℝ) - 2451545)
          = 280460 / 1000 by ring]
      exact jsMod_of_mem (by norm_num) (by norm_num) (by norm_num)
    · rw [getJulianDayNumber_J2000,
        show (357528 / 1000 : ℝ) + 9856003 / 10000000 * ((2451545 : ℝ) - 2451545)
          = 357528 / 1000 by ring]
      exact jsMod_of_mem (by norm_num) (by norm_num) (by norm_num)
    · rw [hs1, hs2]
      linarith
    · rw [hs1, hs2]
      linarith
  rw [hmain, hs1, hs2]
  constructor <;> linarith

/-- C8, amended.  For 2000-01-01 12:00 UTC, the computed ecliptic
longitude of the analytic `calculateSunLongitude` lies strictly between
280.37 and 280.38 degrees (approximately 280.376, not 280.8), its zodiac
index `floor(longitude/30)` is 9, and the derived zodiac sign is
"Capricorn". -/
theorem sunLongitude_J2000_capricorn :
    (28037 / 100 : ℝ) < calculateSunLongitude Real.pi Real.sin 2000 1 1 12 0 0 ∧
    calculateSunLongitude Real.pi Real.sin 2000 1 1 12 0 0 < (28038 / 100 : ℝ) ∧
    ⌊calculateSunLongitude Real.pi Real.sin 2000 1 1 12 0 0 / 30⌋ = 9 ∧
    getZodiacSign (calculateSunLongitude Real.pi Real.sin 2000 1 1 12 0 0) =
      some "Capricorn" := by
  obtain ⟨hlo, hhi⟩ := calculateSunLongitude_J2000_bounds
  have hfl : ⌊calculateSunLongitude Real.pi Real.sin 2000 1 1 12 0 0 / 30⌋ = 9 := by
    rw [Int.floor_eq_iff]
    constructor
    · rw [le_div_iff₀ (by norm_num : (0 : ℝ) < 30)]
      push_cast
      linarith
    · rw [div_lt_iff₀ (by norm_num : (0 : ℝ) < 30)]
      push_cast
      linarith
  refine ⟨hlo, hhi, hfl, ?_⟩
  rw [getZodiacSign, hfl, jsArrayGet, if_pos (by omega)]
  rfl

/-- C8, counterexample.  The computed longitude for 2000-01-01 12:00
UTC differs from the spec's stated value 280.8 by more than 0.4 degrees
(the value is approximately 280.376), so the longitude is not
approximately 280.8. -/
theorem sunLongitude_J2000_not_2808 :
    (4 / 10 : ℝ) <
      |calculateSunLongitude Real.pi Real.sin 2000 1 1 12 0 0 - 2808 / 10| := by
  obtain ⟨hlo, hhi⟩ := calculateSunLongitude_J2000_bounds
  rw [abs_of_neg (by linarith)]
  linarith
